import Mathlib

/-!
# faceai: a verification development of `script.js`

Shallow embedding of the page script: the eye-aspect-ratio and intoxication
heuristic, the dominant-expression reduction, one cycle of the detection loop,
the webcam start/stop handlers and the scheduling of detection loops.

Numbers.  JavaScript numbers are modelled as values of an ordered field `K`
extended with the IEEE special values `NaN`, `+Infinity`, `-Infinity`
(`JSNum K`); zero is the positive zero.  Values handed over by the face library
(probabilities, ages, coordinates, distances) are finite, so they live in `K`.

Arithmetic.  The eye ratio is embedded twice.  `getEyeAspectRatio` computes its
additions and divisions exactly; the verdict and the signs are stated on it, for
whatever value the ratio has.  `getEyeAspectRatioWith` rounds the result of every
addition and division with a rounding rule; `roundDouble` is the rule of the
script, round to the nearest double with ties to even, and `JSNum.fin` gives the
exact functions back.
-/

namespace FaceAI

/-! ## JavaScript numbers -/

/-- A JavaScript number: an exact finite value or one of the special values. -/
inductive JSNum (K : Type) where
  | nan : JSNum K
  | negInf : JSNum K
  | fin (x : K) : JSNum K
  | posInf : JSNum K
  deriving DecidableEq

namespace JSNum

variable {K : Type} [LinearOrderedField K]

/-- The `+` operator on numbers, computed exactly. -/
def add : JSNum K → JSNum K → JSNum K
  | nan, _ => nan
  | _, nan => nan
  | posInf, negInf => nan
  | negInf, posInf => nan
  | posInf, _ => posInf
  | _, posInf => posInf
  | negInf, _ => negInf
  | _, negInf => negInf
  | fin a, fin b => fin (a + b)

/-- The `/` operator on numbers, computed exactly; a zero divisor is the positive zero. -/
def div : JSNum K → JSNum K → JSNum K
  | nan, _ => nan
  | _, nan => nan
  | fin a, fin b =>
      if b = 0 then (if a = 0 then nan else if 0 < a then posInf else negInf)
      else fin (a / b)
  | fin _, posInf => fin 0
  | fin _, negInf => fin 0
  | posInf, fin b => if 0 ≤ b then posInf else negInf
  | negInf, fin b => if 0 ≤ b then negInf else posInf
  | posInf, posInf => nan
  | posInf, negInf => nan
  | negInf, posInf => nan
  | negInf, negInf => nan

/-- The relational operator `a < b`; every comparison with `NaN` is false. -/
def lt : JSNum K → JSNum K → Bool
  | nan, _ => false
  | _, nan => false
  | fin a, fin b => decide (a < b)
  | negInf, negInf => false
  | negInf, _ => true
  | _, negInf => false
  | posInf, _ => false
  | fin _, posInf => true

/-- The relational operator `a > b`. -/
def gt (a b : JSNum K) : Bool := lt b a

end JSNum

/-! ## Data handed over by the face library -/

/-- A landmark point. -/
structure Point (K : Type) where
  x : K
  y : K

/-- The six landmark points of one eye, `eye[0]` to `eye[5]`. -/
structure Eye (K : Type) where
  p0 : Point K
  p1 : Point K
  p2 : Point K
  p3 : Point K
  p4 : Point K
  p5 : Point K

/-- The landmark set of a face, with its `getLeftEye()` and `getRightEye()`. -/
structure Landmarks (K : Type) where
  getLeftEye : Eye K
  getRightEye : Eye K

/-- An expression distribution: the object's entries in key order. -/
abbrev Expressions (K : Type) := List (String × K)

/-- One detected face. -/
structure Detection (K : Type) where
  expressions : Expressions K
  landmarks : Landmarks K
  age : K
  gender : String

/-- Property access `expressions.key` used as a number: a missing key reads
`undefined`, which a relational operator converts to `NaN`. -/
def Expressions.prop {K : Type} (expressions : Expressions K) (key : String) : JSNum K :=
  match expressions.lookup key with
  | some p => JSNum.fin p
  | none => JSNum.nan

/-! ## The intoxication heuristic -/

section Heuristic

variable {K : Type} [LinearOrderedField K]

/-- The inner function `getEyeRatio(eye)` of `getEyeAspectRatio`, in exact
arithmetic; `euclideanDistance` is the library function `faceapi.euclideanDistance`. -/
def getEyeRatio (euclideanDistance : Point K → Point K → K) (eye : Eye K) : JSNum K :=
  let height := JSNum.div
    (JSNum.add (JSNum.fin (euclideanDistance eye.p1 eye.p5))
      (JSNum.fin (euclideanDistance eye.p2 eye.p4)))
    (JSNum.fin 2)
  let width := JSNum.fin (euclideanDistance eye.p0 eye.p3)
  JSNum.div height width

/-- The function `getEyeAspectRatio(landmarks)`, in exact arithmetic. -/
def getEyeAspectRatio (euclideanDistance : Point K → Point K → K)
    (landmarks : Landmarks K) : JSNum K :=
  let leftEye := landmarks.getLeftEye
  let rightEye := landmarks.getRightEye
  JSNum.div
    (JSNum.add (getEyeRatio euclideanDistance leftEye) (getEyeRatio euclideanDistance rightEye))
    (JSNum.fin 2)

/-- The object returned by `checkIntoxication`. -/
structure IntoxicationCheck where
  isIntoxicated : Bool
  signs : List String
  deriving DecidableEq

/-- Conditional `signs.push(label)`. -/
def pushIf (c : Bool) (label : String) (signs : List String) : List String :=
  if c then signs ++ [label] else signs

/-- The function `checkIntoxication(detection, landmarks)`. -/
def checkIntoxication (euclideanDistance : Point K → Point K → K)
    (detection : Detection K) (landmarks : Landmarks K) : IntoxicationCheck :=
  let expressions := detection.expressions
  let eyeAspectRatio := getEyeAspectRatio euclideanDistance landmarks
  let signs : List String := []
  let signs := pushIf (JSNum.lt eyeAspectRatio (JSNum.fin 0.2)) "Droopy eyes" signs
  let signs := pushIf (JSNum.gt (expressions.prop "happy") (JSNum.fin 0.7))
    "Excessive happiness" signs
  let signs := pushIf (JSNum.lt (expressions.prop "neutral") (JSNum.fin 0.3))
    "Lack of focus" signs
  { isIntoxicated := decide (signs.length ≥ 2), signs := signs }

end Heuristic

/-! ## Errors and the dominant expression -/

/-- A thrown JavaScript error value. -/
structure JSError where
  name : String
  message : String
  deriving DecidableEq

/-- A `TypeError` with the given message. -/
def typeError (message : String) : JSError := { name := "TypeError", message := message }

/-- The method `Array.prototype.reduce(f)` without an initial value: the first element
seeds the accumulator, and an empty array throws a `TypeError`. -/
def reduce {α : Type} (f : α → α → α) : List α → Except JSError α
  | [] => Except.error (typeError "Reduce of empty array with no initial value")
  | a :: rest => Except.ok (rest.foldl f a)

section Dominant

variable {K : Type} [LinearOrderedField K]

/-- The reducer `(a, b) => a[1] > b[1] ? a : b`. -/
def pickEntry (a b : String × K) : String × K :=
  if JSNum.gt (JSNum.fin a.2) (JSNum.fin b.2) then a else b

/-- The dominant expression
`Object.entries(expressions).reduce((a, b) => a[1] > b[1] ? a : b)[0]`. -/
def dominantExpression (expressions : Expressions K) : Except JSError String :=
  match reduce pickEntry expressions with
  | Except.ok entry => Except.ok entry.1
  | Except.error e => Except.error e

end Dominant

/-! ## The page -/

/-- A media track; `stopped` records that `track.stop()` was called on it. -/
structure Track where
  label : String
  stopped : Bool
  deriving DecidableEq

/-- The handle returned by `getUserMedia`, with its `getTracks()`. -/
structure MediaStream where
  getTracks : List Track
  deriving DecidableEq

/-- Calls to the heuristic, recorded to state which functions a cycle ran. -/
inductive Call where
  | checkIntoxication : Call
  | getEyeAspectRatio : Call
  deriving DecidableEq

/-- The mutable state the script works on. -/
structure Page where
  /-- The module variable `stream`; `none` is `undefined`. -/
  stream : Option MediaStream
  /-- The property `video.srcObject`; `none` is `null`. -/
  srcObject : Option MediaStream
  /-- The property `startBtn.disabled`. -/
  startBtnDisabled : Bool
  /-- The property `stopBtn.disabled`. -/
  stopBtnDisabled : Bool
  /-- The property `status.innerHTML`. -/
  status : String
  /-- What is drawn on the overlay canvas; `clearRect` over the whole canvas empties it. -/
  overlay : List String
  /-- The errors written with `console.error`. -/
  console : List JSError
  /-- The `requestAnimationFrame(detectFeatures)` callbacks registered so far. -/
  scheduled : Nat
  /-- The heuristic functions called so far. -/
  calls : List Call
  deriving DecidableEq

/-- Modelled from the spec: the page markup is not part of the script; the page
as the script finds it when it is loaded, the stop control disabled because no
source is active. -/
def Page.initial : Page :=
  { stream := none, srcObject := none, startBtnDisabled := false, stopBtnDisabled := true,
    status := "", overlay := [], console := [], scheduled := 0, calls := [] }

/-! ## The capture controller -/

/-- The function `startWebcam()`; `getUserMedia` is how the media request settles. -/
def startWebcam (getUserMedia : Except JSError MediaStream) (page : Page) : Page :=
  match getUserMedia with
  | Except.ok userMedia =>
      { page with
        srcObject := some userMedia
        stream := some userMedia
        startBtnDisabled := true
        stopBtnDisabled := false
        status := "Webcam active!" }
  | Except.error error =>
      { page with
        console := page.console ++ [error]
        status := "Error: " ++ error.message }

/-- The callback `track => track.stop()`. -/
def Track.stop (track : Track) : Track := { track with stopped := true }

/-- The function `stopWebcam()`; reading `getTracks` of an undefined `stream` throws. -/
def stopWebcam (page : Page) : Except JSError Page :=
  match page.stream with
  | none => Except.error (typeError "Cannot read properties of undefined (reading getTracks)")
  | some stream =>
      let tracks := stream.getTracks
      let tracks := tracks.map Track.stop
      Except.ok
        { page with
          stream := some { getTracks := tracks }
          srcObject := none
          startBtnDisabled := false
          stopBtnDisabled := true
          status := "Webcam stopped!" }

/-! ## One cycle of the detection loop -/

/-- The library functions the cycle relies on. -/
structure Lib (K : Type) where
  /-- The function `faceapi.euclideanDistance`. -/
  euclideanDistance : Point K → Point K → K
  /-- The method `String.prototype.toUpperCase`. -/
  toUpperCase : String → String

/-- How the external calls of one cycle settle. -/
structure Settled (K : Type) where
  /-- The awaited `detectAllFaces(...)` chain: the detections, or a rejection. -/
  detectAllFaces : Except JSError (List (Detection K))
  /-- The call `faceapi.draw.drawFaceLandmarks`. -/
  drawFaceLandmarks : Except JSError Unit
  /-- The call `faceapi.draw.drawDetections`. -/
  drawDetections : Except JSError Unit

section Cycle

variable {K : Type} [LinearOrderedField K] [FloorRing K]

/-- The function `Math.round` on a finite number: the nearest integer, a half rounding up. -/
def mathRound (x : K) : Int := Int.floor (x + 1 / 2)

/-- The expression `s.charAt(0).toUpperCase() + s.slice(1)`. -/
def capitalize (toUpperCase : String → String) (s : String) : String :=
  toUpperCase (s.take 1) ++ s.drop 1

/-- The array `statusMessages` once the signs line has been pushed or not. -/
def statusMessages (toUpperCase : String → String) (detection : Detection K)
    (dominant : String) (intoxicationCheck : IntoxicationCheck) : List String :=
  let statusMessages := [
    "Age: ~" ++ toString (mathRound detection.age),
    "Gender: " ++ detection.gender,
    "Expression: " ++ capitalize toUpperCase dominant,
    "Sobriety Check: " ++
      (if intoxicationCheck.isIntoxicated then "🚨 Possible intoxication" else "✅ Looking sober")]
  if intoxicationCheck.isIntoxicated then
    statusMessages ++ ["Signs: " ++ String.intercalate ", " intoxicationCheck.signs]
  else statusMessages

/-- The debug drawing of a cycle: both overlays in turn, the first error stops it. -/
def drawDebug (settled : Settled K) (page : Page) : Option JSError × Page :=
  match settled.drawFaceLandmarks with
  | Except.error e => (some e, page)
  | Except.ok _ =>
      let page := { page with overlay := page.overlay ++ ["landmarks"] }
      match settled.drawDetections with
      | Except.error e => (some e, page)
      | Except.ok _ => (none, { page with overlay := page.overlay ++ ["detections"] })

/-- The `try` block of `detectFeatures`: the error it throws, if any, and the
page as the block leaves it. -/
def detectBody (lib : Lib K) (isDebugMode : Bool) (settled : Settled K) (page : Page) :
    Option JSError × Page :=
  match settled.detectAllFaces with
  | Except.error e => (some e, page)
  | Except.ok detections =>
      let page := { page with overlay := [] }
      match detections with
      | detection :: _ =>
          let expressions := detection.expressions
          let landmarks := detection.landmarks
          match dominantExpression expressions with
          | Except.error e => (some e, page)
          | Except.ok dominant =>
              let intoxicationCheck := checkIntoxication lib.euclideanDistance detection landmarks
              let page := { page with
                calls := page.calls ++ [Call.checkIntoxication, Call.getEyeAspectRatio] }
              let messages := statusMessages lib.toUpperCase detection dominant intoxicationCheck
              let page := { page with status := String.intercalate "<br>" messages }
              if isDebugMode then drawDebug settled page else (none, page)
      | [] => (none, { page with status := "No face detected" })

/-- The function `detectFeatures()` from the point where the inference call has
settled: the `try` block, the `catch` that logs, then the rescheduling. -/
def detectFeatures (lib : Lib K) (isDebugMode : Bool) (settled : Settled K) (page : Page) : Page :=
  let page :=
    match detectBody lib isDebugMode settled page with
    | (none, page) => page
    | (some error, page) => { page with console := page.console ++ [error] }
  { page with scheduled := page.scheduled + 1 }

end Cycle

/-! ## Scheduling of the detection loops -/

/-- What is pending on the event loop. -/
structure Sched where
  /-- The `play` handlers awaiting `loadModels()`. -/
  loading : Nat
  /-- The `detectFeatures` cycles awaiting their inference call. -/
  awaiting : Nat
  /-- The `detectFeatures` callbacks registered for the next display refresh. -/
  scheduled : Nat
  deriving DecidableEq

/-- The events that move the loops. -/
inductive Event where
  /-- The video fires `play`: the listener starts and awaits `loadModels()`. -/
  | play : Event
  /-- One awaited `loadModels()` settles; on success the listener calls `detectFeatures()`. -/
  | modelsLoaded (ok : Bool) : Event
  /-- One awaited inference call settles; its cycle runs to the end and reschedules itself. -/
  | inferenceSettled : Event
  /-- A display refresh: every registered callback runs and starts its inference call. -/
  | animationFrame : Event
  deriving DecidableEq

/-- The state at page load. -/
def Sched.initial : Sched := { loading := 0, awaiting := 0, scheduled := 0 }

/-- One event; an event with nothing to act on leaves the state alone. -/
def Sched.step (s : Sched) : Event → Sched
  | Event.play => { s with loading := s.loading + 1 }
  | Event.modelsLoaded ok =>
      if s.loading = 0 then s
      else if ok then { s with loading := s.loading - 1, awaiting := s.awaiting + 1 }
      else { s with loading := s.loading - 1 }
  | Event.inferenceSettled =>
      if s.awaiting = 0 then s
      else { s with awaiting := s.awaiting - 1, scheduled := s.scheduled + 1 }
  | Event.animationFrame => { s with awaiting := s.awaiting + s.scheduled, scheduled := 0 }

/-- The state after a sequence of events from page load. -/
def Sched.run (events : List Event) : Sched := events.foldl Sched.step Sched.initial

/-- The live analysis loops: cycles awaiting inference or registered for the next refresh. -/
def Sched.live (s : Sched) : Nat := s.awaiting + s.scheduled

/-- The inference calls in flight. -/
def Sched.inFlight (s : Sched) : Nat := s.awaiting

/-! ## Scaling of landmarks and the exact distance -/

/-- Multiply both coordinates of a point by `k`. -/
def Point.scale {K : Type} [Mul K] (k : K) (p : Point K) : Point K :=
  { x := k * p.x, y := k * p.y }

/-- Multiply every coordinate of an eye polygon by `k`. -/
def Eye.scale {K : Type} [Mul K] (k : K) (eye : Eye K) : Eye K :=
  { p0 := eye.p0.scale k, p1 := eye.p1.scale k, p2 := eye.p2.scale k,
    p3 := eye.p3.scale k, p4 := eye.p4.scale k, p5 := eye.p5.scale k }

/-- Multiply every landmark coordinate by `k`. -/
def Landmarks.scale {K : Type} [Mul K] (k : K) (landmarks : Landmarks K) : Landmarks K :=
  { getLeftEye := landmarks.getLeftEye.scale k, getRightEye := landmarks.getRightEye.scale k }

/-- The distance function is the exact Euclidean distance: the non-negative
number whose square is the sum of the squared coordinate differences. -/
def IsEuclidean {K : Type} [LinearOrderedField K] (dist : Point K → Point K → K) : Prop :=
  ∀ p q, 0 ≤ dist p q ∧ dist p q ^ 2 = (p.x - q.x) ^ 2 + (p.y - q.y) ^ 2

/-- The distance computed with a given square root. -/
def distanceWith {K : Type} [LinearOrderedField K] (sqrt : K → K) (p q : Point K) : K :=
  sqrt ((p.x - q.x) ^ 2 + (p.y - q.y) ^ 2)

/-! ## The two buttons -/

/-- A click on one of the two buttons; a start click carries how the media request settles. -/
inductive Click where
  | start (getUserMedia : Except JSError MediaStream) : Click
  | stop : Click

/-- The `click` listeners of the two buttons; a disabled button dispatches no click. -/
def click (page : Page) : Click → Except JSError Page
  | Click.start getUserMedia =>
      if page.startBtnDisabled then Except.ok page else Except.ok (startWebcam getUserMedia page)
  | Click.stop =>
      if page.stopBtnDisabled then Except.ok page else stopWebcam page

/-- A sequence of clicks, stopping at the first error thrown. -/
def clicks : Page → List Click → Except JSError Page
  | page, [] => Except.ok page
  | page, c :: rest =>
      match click page c with
      | Except.ok page => clicks page rest
      | Except.error e => Except.error e

/-- The stop button is enabled only while `stream` holds a handle. -/
def StopGated (page : Page) : Prop := page.stopBtnDisabled = false → page.stream ≠ none

/-! ## Concrete inputs -/

/-- A distance on rational points that agrees with the Euclidean one on
axis-parallel segments; used for concrete inputs. -/
def axisDistance (p q : Point ℚ) : ℚ := |p.x - q.x| + |p.y - q.y|

/-- Upper-casing of the ASCII letters of a string. -/
def asciiUpper (s : String) : String := String.mk (s.data.map Char.toUpper)

/-- The library used for concrete inputs: the axis distance and ASCII upper-casing. -/
def sampleLib : Lib ℚ := { euclideanDistance := axisDistance, toUpperCase := asciiUpper }

/-- An eye of width `w` whose two vertical spans are both `h`. -/
def boxEye {K : Type} [LinearOrderedField K] (w h : K) : Eye K :=
  { p0 := ⟨0, 0⟩, p1 := ⟨1, h⟩, p2 := ⟨2, h⟩, p3 := ⟨w, 0⟩, p4 := ⟨2, 0⟩, p5 := ⟨1, 0⟩ }

/-- The landmark set whose two eyes are the same box. -/
def sampleLandmarks {K : Type} [LinearOrderedField K] (w h : K) : Landmarks K :=
  { getLeftEye := boxEye w h, getRightEye := boxEye w h }

/-- A face with the given `happy` and `neutral` probabilities, the rest of the
mass on `sad`. -/
def sampleDetection (w h happy neutral : ℚ) : Detection ℚ :=
  { expressions := [("neutral", neutral), ("happy", happy), ("sad", 1 - happy - neutral)]
    landmarks := sampleLandmarks w h
    age := 30
    gender := "female" }

/-- A distribution whose two labels share the maximum. -/
def tiedExpressions : Expressions ℚ := [("neutral", 1 / 2), ("happy", 1 / 2)]

/-! ## Double-precision rounding -/

section Rounding

variable {K : Type} [LinearOrderedField K] [FloorRing K]

/-- The nearest integer, a tie going to the even neighbour. -/
def roundHalfEven (q : K) : Int :=
  let f := Int.floor q
  if q - f < 1 / 2 then f
  else if 1 / 2 < q - f then f + 1
  else if f % 2 = 0 then f else f + 1

/-- The exponent of the unit in the last place around `x`: 52 below the binary
exponent of `x`, and never below that of the subnormal numbers. -/
def ulpExponent (x : K) : Int := max (Int.log 2 |x|) (-1022) - 52

/-- The double nearest to the exact value `x`, ties to even: a 53-bit
significand, and a magnitude that reaches `2 ^ 1024` overflows to an infinity. -/
def roundDouble (x : K) : JSNum K :=
  let u : K := 2 ^ ulpExponent x
  let y : K := (roundHalfEven (x / u) : K) * u
  if 2 ^ (1024 : Int) ≤ |y| then (if 0 < x then JSNum.posInf else JSNum.negInf)
  else JSNum.fin y

end Rounding

/-- The result of an operator under a rounding rule: a finite exact result is
rounded, a special value stays. -/
def JSNum.rounded {K : Type} (rnd : K → JSNum K) : JSNum K → JSNum K
  | JSNum.fin x => rnd x
  | JSNum.nan => JSNum.nan
  | JSNum.posInf => JSNum.posInf
  | JSNum.negInf => JSNum.negInf

section HeuristicRounded

variable {K : Type} [LinearOrderedField K]

/-- The `+` operator under the rounding rule `rnd`. -/
def JSNum.addWith (rnd : K → JSNum K) (a b : JSNum K) : JSNum K :=
  JSNum.rounded rnd (JSNum.add a b)

/-- The `/` operator under the rounding rule `rnd`. -/
def JSNum.divWith (rnd : K → JSNum K) (a b : JSNum K) : JSNum K :=
  JSNum.rounded rnd (JSNum.div a b)

/-- The inner function `getEyeRatio(eye)` with every `+` and `/` rounded by `rnd`. -/
def getEyeRatioWith (rnd : K → JSNum K) (euclideanDistance : Point K → Point K → K)
    (eye : Eye K) : JSNum K :=
  let height := JSNum.divWith rnd
    (JSNum.addWith rnd (JSNum.fin (euclideanDistance eye.p1 eye.p5))
      (JSNum.fin (euclideanDistance eye.p2 eye.p4)))
    (JSNum.fin 2)
  let width := JSNum.fin (euclideanDistance eye.p0 eye.p3)
  JSNum.divWith rnd height width

/-- The function `getEyeAspectRatio(landmarks)` with every `+` and `/` rounded by
`rnd`; `roundDouble` gives the arithmetic of the script, `JSNum.fin` exact arithmetic. -/
def getEyeAspectRatioWith (rnd : K → JSNum K) (euclideanDistance : Point K → Point K → K)
    (landmarks : Landmarks K) : JSNum K :=
  let leftEye := landmarks.getLeftEye
  let rightEye := landmarks.getRightEye
  JSNum.divWith rnd
    (JSNum.addWith rnd (getEyeRatioWith rnd euclideanDistance leftEye)
      (getEyeRatioWith rnd euclideanDistance rightEye))
    (JSNum.fin 2)

end HeuristicRounded

/-- An eye on the axes: corners `(0, 0)` and `(w, 0)`, the upper lid at `(x1, h1)`
and `(x2, h2)`, the lower lid at `(x2, 0)` and `(x1, 0)`. -/
def boxEyeAt {K : Type} [LinearOrderedField K] (x1 x2 w h1 h2 : K) : Eye K :=
  { p0 := ⟨0, 0⟩, p1 := ⟨x1, h1⟩, p2 := ⟨x2, h2⟩, p3 := ⟨w, 0⟩, p4 := ⟨x2, 0⟩, p5 := ⟨x1, 0⟩ }

/-- The landmark set whose two eyes are the same eye on the axes. -/
def boxLandmarksAt {K : Type} [LinearOrderedField K] (x1 x2 w h1 h2 : K) : Landmarks K :=
  { getLeftEye := boxEyeAt x1 x2 w h1 h2, getRightEye := boxEyeAt x1 x2 w h1 h2 }

/-- A number multiplied by a positive factor `k` in exact arithmetic: an
infinity and `NaN` stay what they are. -/
def JSNum.scale {K : Type} [Mul K] (k : K) : JSNum K → JSNum K
  | JSNum.fin y => JSNum.fin (k * y)
  | JSNum.nan => JSNum.nan
  | JSNum.posInf => JSNum.posInf
  | JSNum.negInf => JSNum.negInf

/-- Rounding commutes with the multiplication by `k` at `x`. -/
def ScalesAt {K : Type} [Mul K] (rnd : K → JSNum K) (k x : K) : Prop :=
  rnd (k * x) = JSNum.scale k (rnd x)

/-- The two roundings of the lid height of an eye, the one of the sum of the
two vertical spans and the one of its half, commute with the multiplication by `k`. -/
def HeightScales {K : Type} [LinearOrderedField K] (rnd : K → JSNum K) (k : K)
    (dist : Point K → Point K → K) (eye : Eye K) : Prop :=
  ScalesAt rnd k (dist eye.p1 eye.p5 + dist eye.p2 eye.p4) ∧
  ∀ s, rnd (dist eye.p1 eye.p5 + dist eye.p2 eye.p4) = JSNum.fin s → ScalesAt rnd k (s / 2)

/-! ## Lemmas on numbers and on the heuristic -/

section HeuristicLemmas

variable {K : Type} [LinearOrderedField K]

theorem JSNum.lt_fin (a b : K) : JSNum.lt (JSNum.fin a) (JSNum.fin b) = decide (a < b) := rfl

theorem JSNum.gt_fin (a b : K) : JSNum.gt (JSNum.fin a) (JSNum.fin b) = decide (b < a) := rfl

/-- The signs and the verdict of `checkIntoxication` in terms of the three tests. -/
theorem checkIntoxication_eq (dist : Point K → Point K → K) (det : Detection K)
    (lm : Landmarks K) (r h n : K)
    (hr : getEyeAspectRatio dist lm = JSNum.fin r)
    (hh : det.expressions.prop "happy" = JSNum.fin h)
    (hn : det.expressions.prop "neutral" = JSNum.fin n) :
    checkIntoxication dist det lm =
      (let signs := pushIf (decide (r < 0.2)) "Droopy eyes" []
       let signs := pushIf (decide (0.7 < h)) "Excessive happiness" signs
       let signs := pushIf (decide (n < 0.3)) "Lack of focus" signs
       { isIntoxicated := decide (signs.length ≥ 2), signs := signs }) := by
  simp only [checkIntoxication, hr, hh, hn, JSNum.lt_fin, JSNum.gt_fin]

end HeuristicLemmas

theorem sample_ratio (w h : ℚ) (hw : w ≠ 0) :
    getEyeAspectRatio axisDistance (sampleLandmarks w h) = JSNum.fin (|h| / |w|) := by
  simp [getEyeAspectRatio, getEyeRatio, sampleLandmarks, boxEye, axisDistance, JSNum.add,
    JSNum.div, hw]

theorem sample_ratio_droopy :
    getEyeAspectRatio axisDistance (sampleLandmarks 20 3) = JSNum.fin 0.15 := by
  rw [sample_ratio 20 3 (by norm_num)]; norm_num

theorem sample_happy (w h happy neutral : ℚ) :
    (sampleDetection w h happy neutral).expressions.prop "happy" = JSNum.fin happy := by
  simp [sampleDetection, Expressions.prop, List.lookup]

theorem sample_neutral (w h happy neutral : ℚ) :
    (sampleDetection w h happy neutral).expressions.prop "neutral" = JSNum.fin neutral := by
  simp [sampleDetection, Expressions.prop, List.lookup]

/-! ## The intoxication verdict and its signs -/

section HeuristicClaims

variable {K : Type} [LinearOrderedField K]

/-- C2: for every eye ratio `r` and every happy and neutral probability `h`, `n`,
`checkIntoxication` returns `isIntoxicated = true` exactly when at least two of
the three conditions `r < 0.2`, `h > 0.7`, `n < 0.3` hold. -/
theorem checkIntoxication_verdict_iff (dist : Point K → Point K → K) (det : Detection K)
    (lm : Landmarks K) (r h n : K)
    (hr : getEyeAspectRatio dist lm = JSNum.fin r)
    (hh : det.expressions.prop "happy" = JSNum.fin h)
    (hn : det.expressions.prop "neutral" = JSNum.fin n) :
    ((checkIntoxication dist det lm).isIntoxicated = true ↔
      2 ≤ (if r < 0.2 then 1 else 0) + (if h > 0.7 then 1 else 0) + (if n < 0.3 then 1 else 0)) ∧
    ((checkIntoxication dist det lm).isIntoxicated = false ↔
      (if r < 0.2 then 1 else 0) + (if h > 0.7 then 1 else 0) + (if n < 0.3 then 1 else 0) < 2) := by
  rw [checkIntoxication_eq dist det lm r h n hr hh hn]
  by_cases h1 : r < 0.2 <;> by_cases h2 : 0.7 < h <;> by_cases h3 : n < 0.3 <;>
    simp [pushIf, h1, h2, h3]

/-- C5 (amended): the signs returned by `checkIntoxication` are the sub-list of
`["Droopy eyes", "Excessive happiness", "Lack of focus"]`, in that order, that
keeps the first label iff `r < 0.2`, the second iff `h > 0.7` and the third iff
`n < 0.3`. -/
theorem checkIntoxication_signs (dist : Point K → Point K → K) (det : Detection K)
    (lm : Landmarks K) (r h n : K)
    (hr : getEyeAspectRatio dist lm = JSNum.fin r)
    (hh : det.expressions.prop "happy" = JSNum.fin h)
    (hn : det.expressions.prop "neutral" = JSNum.fin n) :
    (checkIntoxication dist det lm).signs =
      (if r < 0.2 then ["Droopy eyes"] else []) ++
      (if h > 0.7 then ["Excessive happiness"] else []) ++
      (if n < 0.3 then ["Lack of focus"] else []) := by
  rw [checkIntoxication_eq dist det lm r h n hr hh hn]
  by_cases h1 : r < 0.2 <;> by_cases h2 : 0.7 < h <;> by_cases h3 : n < 0.3 <;>
    simp [pushIf, h1, h2, h3]

end HeuristicClaims

/-- C2, at the spec example: ratio 0.15, happy 0.2, neutral 0.5 give the verdict false. -/
theorem checkIntoxication_verdict_example :
    (getEyeAspectRatio axisDistance (sampleLandmarks 20 3) = JSNum.fin 0.15 ∧
      (sampleDetection 20 3 0.2 0.5).expressions.prop "happy" = JSNum.fin 0.2 ∧
      (sampleDetection 20 3 0.2 0.5).expressions.prop "neutral" = JSNum.fin 0.5) ∧
    (checkIntoxication axisDistance (sampleDetection 20 3 0.2 0.5)
      (sampleLandmarks 20 3)).isIntoxicated = false :=
  ⟨⟨sample_ratio_droopy, sample_happy _ _ _ _, sample_neutral _ _ _ _⟩,
    ((checkIntoxication_verdict_iff axisDistance (sampleDetection 20 3 0.2 0.5)
      (sampleLandmarks 20 3) 0.15 0.2 0.5 sample_ratio_droopy (sample_happy _ _ _ _)
      (sample_neutral _ _ _ _)).2).2 (by norm_num)⟩

/-- C5, at the spec example ratio 0.15, happy 0.2, neutral 0.5: the one sign
returned is `"Droopy eyes"`, which is not the string `"droopy eyes"`. -/
theorem checkIntoxication_signs_lowercase_fails :
    (getEyeAspectRatio axisDistance (sampleLandmarks 20 3) = JSNum.fin 0.15 ∧
      (sampleDetection 20 3 0.2 0.5).expressions.prop "happy" = JSNum.fin 0.2 ∧
      (sampleDetection 20 3 0.2 0.5).expressions.prop "neutral" = JSNum.fin 0.5) ∧
    (checkIntoxication axisDistance (sampleDetection 20 3 0.2 0.5)
      (sampleLandmarks 20 3)).signs = ["Droopy eyes"] ∧
    (checkIntoxication axisDistance (sampleDetection 20 3 0.2 0.5)
      (sampleLandmarks 20 3)).signs ≠ ["droopy eyes"] := by
  have hs : (checkIntoxication axisDistance (sampleDetection 20 3 0.2 0.5)
      (sampleLandmarks 20 3)).signs = ["Droopy eyes"] := by
    rw [checkIntoxication_eq axisDistance _ _ 0.15 0.2 0.5 sample_ratio_droopy
      (sample_happy _ _ _ _) (sample_neutral _ _ _ _)]
    norm_num [pushIf]
  refine ⟨⟨sample_ratio_droopy, sample_happy _ _ _ _, sample_neutral _ _ _ _⟩, hs, ?_⟩
  rw [hs]
  decide

/-- C5 (amended), at the spec example ratio 0.15, happy 0.8, neutral 0.1: all
three signs are returned, in order. -/
theorem checkIntoxication_signs_example :
    (getEyeAspectRatio axisDistance (sampleLandmarks 20 3) = JSNum.fin 0.15 ∧
      (sampleDetection 20 3 0.8 0.1).expressions.prop "happy" = JSNum.fin 0.8 ∧
      (sampleDetection 20 3 0.8 0.1).expressions.prop "neutral" = JSNum.fin 0.1) ∧
    (checkIntoxication axisDistance (sampleDetection 20 3 0.8 0.1)
      (sampleLandmarks 20 3)).signs =
        ["Droopy eyes", "Excessive happiness", "Lack of focus"] := by
  refine ⟨⟨sample_ratio_droopy, sample_happy _ _ _ _, sample_neutral _ _ _ _⟩, ?_⟩
  rw [checkIntoxication_signs axisDistance (sampleDetection 20 3 0.8 0.1)
    (sampleLandmarks 20 3) 0.15 0.8 0.1 sample_ratio_droopy (sample_happy _ _ _ _)
    (sample_neutral _ _ _ _)]
  norm_num

/-! ## The signs on a probability distribution -/

theorem prop_eq_fin {K : Type} (e : Expressions K) (a : String) (h : K)
    (ha : e.prop a = JSNum.fin h) : e.lookup a = some h := by
  unfold Expressions.prop at ha
  cases hl : e.lookup a with
  | none => simp [hl] at ha
  | some v => simpa [hl] using ha

section Distribution

variable {K : Type} [LinearOrderedField K]

theorem lookup_le_sum (e : Expressions K) (hnonneg : ∀ p ∈ e, 0 ≤ p.2) (a : String) (h : K)
    (ha : e.lookup a = some h) : h ≤ (e.map Prod.snd).sum := by
  induction e with
  | nil => simp at ha
  | cons p t ih =>
    obtain ⟨k, v⟩ := p
    have hv : 0 ≤ v := hnonneg (k, v) (List.mem_cons_self _ _)
    have ht : ∀ p ∈ t, 0 ≤ p.2 := fun p hp => hnonneg p (List.mem_cons_of_mem _ hp)
    have hsum : 0 ≤ (t.map Prod.snd).sum :=
      List.sum_nonneg (by simpa using fun a b hb => ht (b, a) hb)
    by_cases hk : a = k
    · subst hk
      simp [List.lookup] at ha
      subst ha
      simpa using hsum
    · have hak : (a == k) = false := by simpa using hk
      simp only [List.lookup, hak] at ha
      have := ih ht ha
      simp only [List.map_cons, List.sum_cons]
      linarith

theorem lookup_add_le_sum (e : Expressions K) (hnonneg : ∀ p ∈ e, 0 ≤ p.2) (a b : String)
    (hab : a ≠ b) (h n : K) (ha : e.lookup a = some h) (hb : e.lookup b = some n) :
    h + n ≤ (e.map Prod.snd).sum := by
  induction e with
  | nil => simp at ha
  | cons p t ih =>
    obtain ⟨k, v⟩ := p
    have hv : 0 ≤ v := hnonneg (k, v) (List.mem_cons_self _ _)
    have ht : ∀ p ∈ t, 0 ≤ p.2 := fun p hp => hnonneg p (List.mem_cons_of_mem _ hp)
    simp only [List.map_cons, List.sum_cons]
    by_cases hk : a = k
    · subst hk
      have hba : (b == a) = false := by simpa using fun h => hab h.symm
      simp only [List.lookup, hba] at hb
      simp [List.lookup] at ha
      subst ha
      have := lookup_le_sum t ht b n hb
      linarith
    · have hak : (a == k) = false := by simpa using hk
      simp only [List.lookup, hak] at ha
      by_cases hk2 : b = k
      · subst hk2
        simp [List.lookup] at hb
        subst hb
        have := lookup_le_sum t ht a h ha
        linarith
      · have hbk : (b == k) = false := by simpa using hk2
        simp only [List.lookup, hbk] at hb
        have := ih ht ha hb
        linarith

/-- C10: on a distribution of non-negative probabilities that sum to 1, a happy
probability above 0.7 forces the neutral probability below 0.3; so
`checkIntoxication` never returns `"Excessive happiness"` without
`"Lack of focus"`, and its verdict is true whenever happy is above 0.7,
whatever the eye ratio. -/
theorem happy_forces_lack_of_focus (dist : Point K → Point K → K) (det : Detection K)
    (lm : Landmarks K) (h n : K)
    (hnonneg : ∀ p ∈ det.expressions, 0 ≤ p.2)
    (hsum : (det.expressions.map Prod.snd).sum = 1)
    (hh : det.expressions.prop "happy" = JSNum.fin h)
    (hn : det.expressions.prop "neutral" = JSNum.fin n) :
    (h > 0.7 → n < 0.3) ∧
    ("Excessive happiness" ∈ (checkIntoxication dist det lm).signs →
      "Lack of focus" ∈ (checkIntoxication dist det lm).signs) ∧
    (h > 0.7 → (checkIntoxication dist det lm).isIntoxicated = true) := by
  have hle : h + n ≤ 1 := by
    rw [← hsum]
    exact lookup_add_le_sum det.expressions hnonneg "happy" "neutral" (by decide) h n
      (prop_eq_fin _ _ _ hh) (prop_eq_fin _ _ _ hn)
  have key : h > 0.7 → n < 0.3 := by
    intro h7
    have h7' : (7 : K) / 10 < h := by norm_num at h7; linarith
    have : n < 3 / 10 := by linarith
    norm_num
    linarith
  refine ⟨key, ?_, ?_⟩
  · simp only [checkIntoxication, hh, hn, JSNum.lt_fin, JSNum.gt_fin]
    cases JSNum.lt (getEyeAspectRatio dist lm) (JSNum.fin 0.2) <;>
      by_cases h2 : 0.7 < h <;> by_cases h3 : n < 0.3 <;>
      simp [pushIf, h2, h3] <;> exact absurd (key h2) h3
  · intro h7
    have h3 := key h7
    have h2 : (0.7 : K) < h := h7
    simp only [checkIntoxication, hh, hn, JSNum.lt_fin, JSNum.gt_fin]
    cases JSNum.lt (getEyeAspectRatio dist lm) (JSNum.fin 0.2) <;> simp [pushIf, h2, h3]

end Distribution

/-- C10, at a face with happy 0.8, neutral 0.1 and wide-open eyes (ratio 0.3):
the verdict is true. -/
theorem happy_forces_lack_of_focus_example :
    ((∀ p ∈ (sampleDetection 20 6 0.8 0.1).expressions, 0 ≤ p.2) ∧
      ((sampleDetection 20 6 0.8 0.1).expressions.map Prod.snd).sum = 1 ∧
      (0.8 : ℚ) > 0.7) ∧
    (checkIntoxication axisDistance (sampleDetection 20 6 0.8 0.1)
      (sampleLandmarks 20 6)).isIntoxicated = true := by
  have hnonneg : ∀ p ∈ (sampleDetection 20 6 0.8 0.1).expressions, 0 ≤ p.2 := by
    intro p hp
    simp only [sampleDetection, List.mem_cons, List.mem_singleton, List.not_mem_nil,
      or_false] at hp
    rcases hp with rfl | rfl | rfl <;> norm_num
  have hsum : ((sampleDetection 20 6 0.8 0.1).expressions.map Prod.snd).sum = 1 := by
    norm_num [sampleDetection]
  exact ⟨⟨hnonneg, hsum, by norm_num⟩,
    (happy_forces_lack_of_focus axisDistance (sampleDetection 20 6 0.8 0.1)
      (sampleLandmarks 20 6) 0.8 0.1 hnonneg hsum (sample_happy _ _ _ _)
      (sample_neutral _ _ _ _)).2.2 (by norm_num)⟩

/-! ## The dominant expression -/

section DominantClaims

variable {K : Type} [LinearOrderedField K]

theorem pickEntry_eq (a b : String × K) : pickEntry a b = if b.2 < a.2 then a else b := by
  simp [pickEntry, JSNum.gt_fin]

/-- The fold of the reducer returns an entry that no entry before it exceeds
and that every entry after it is strictly below. -/
theorem foldl_pickEntry_split (a : String × K) (rest : List (String × K)) :
    ∃ pre post, a :: rest = pre ++ rest.foldl pickEntry a :: post ∧
      (∀ p ∈ pre, p.2 ≤ (rest.foldl pickEntry a).2) ∧
      (∀ p ∈ post, p.2 < (rest.foldl pickEntry a).2) := by
  induction rest using List.reverseRecOn with
  | nil => exact ⟨[], [], by simp⟩
  | append_singleton t b ih =>
    obtain ⟨pre, post, hsplit, hpre, hpost⟩ := ih
    rw [List.foldl_append, List.foldl_cons, List.foldl_nil, pickEntry_eq]
    by_cases hb : b.2 < (t.foldl pickEntry a).2
    · rw [if_pos hb]
      refine ⟨pre, post ++ [b], ?_, hpre, ?_⟩
      · rw [← List.cons_append, hsplit]; simp
      · intro p hp
        rcases List.mem_append.1 hp with hp | hp
        · exact hpost p hp
        · rw [List.mem_singleton.1 hp]; exact hb
    · rw [if_neg hb]
      have hb : (t.foldl pickEntry a).2 ≤ b.2 := not_lt.1 hb
      refine ⟨a :: t, [], by simp, ?_, by simp⟩
      intro p hp
      rw [hsplit] at hp
      rcases List.mem_append.1 hp with hp | hp
      · exact le_trans (hpre p hp) hb
      · rcases List.mem_cons.1 hp with hp | hp
        · rw [hp]; exact hb
        · exact le_trans (le_of_lt (hpost p hp)) hb

/-- On a non-empty distribution the reduction does not throw. -/
theorem dominantExpression_ok (expressions : Expressions K) (hne : expressions ≠ []) :
    ∃ entry : String × K, dominantExpression expressions = Except.ok entry.1 := by
  cases expressions with
  | nil => exact absurd rfl hne
  | cons a rest => exact ⟨rest.foldl pickEntry a, rfl⟩

/-- C1 (amended): on a non-empty distribution the dominant-expression
computation returns the label of an entry whose probability is the maximum of
the distribution, and among entries that share that maximum it returns the
last-listed one: every entry after it is strictly smaller. -/
theorem dominantExpression_last_max (expressions : Expressions K) (hne : expressions ≠ []) :
    ∃ pre entry post, expressions = pre ++ entry :: post ∧
      dominantExpression expressions = Except.ok entry.1 ∧
      (∀ p ∈ expressions, p.2 ≤ entry.2) ∧
      (∀ p ∈ post, p.2 < entry.2) := by
  cases expressions with
  | nil => exact absurd rfl hne
  | cons a rest =>
    obtain ⟨pre, post, hsplit, hpre, hpost⟩ := foldl_pickEntry_split a rest
    refine ⟨pre, rest.foldl pickEntry a, post, hsplit, rfl, ?_, hpost⟩
    intro p hp
    rw [hsplit] at hp
    rcases List.mem_append.1 hp with hp | hp
    · exact hpre p hp
    · rcases List.mem_cons.1 hp with hp | hp
      · rw [hp]
      · exact le_of_lt (hpost p hp)

end DominantClaims

/-- C1, refuted as stated: `tiedExpressions` is a distribution (probabilities in
`[0, 1]` that sum to 1) whose first-listed maximum is `neutral`, and the
computation returns `happy`. -/
theorem dominantExpression_tie_not_first :
    ((tiedExpressions.map Prod.snd).sum = 1 ∧ (∀ p ∈ tiedExpressions, 0 ≤ p.2 ∧ p.2 ≤ 1)) ∧
    (tiedExpressions.head? = some ("neutral", 1 / 2) ∧ ∀ p ∈ tiedExpressions, p.2 ≤ 1 / 2) ∧
    dominantExpression tiedExpressions = Except.ok "happy" ∧
    dominantExpression tiedExpressions ≠ Except.ok "neutral" := by
  have hd : dominantExpression tiedExpressions = Except.ok "happy" := by
    simp [dominantExpression, reduce, tiedExpressions, pickEntry_eq]
  refine ⟨⟨by norm_num [tiedExpressions], ?_⟩, ⟨rfl, ?_⟩, hd, ?_⟩
  · intro p hp
    simp only [tiedExpressions, List.mem_cons, List.mem_singleton, List.not_mem_nil,
      or_false] at hp
    rcases hp with rfl | rfl <;> norm_num
  · intro p hp
    simp only [tiedExpressions, List.mem_cons, List.mem_singleton, List.not_mem_nil,
      or_false] at hp
    rcases hp with rfl | rfl <;> norm_num
  · rw [hd]
    intro h
    injection h with h
    exact absurd h (by decide)

/-- C1 (amended), at `tiedExpressions`. -/
theorem dominantExpression_last_max_example :
    tiedExpressions ≠ [] ∧
    ∃ pre entry post, tiedExpressions = pre ++ entry :: post ∧
      dominantExpression tiedExpressions = Except.ok entry.1 ∧
      (∀ p ∈ tiedExpressions, p.2 ≤ entry.2) ∧
      (∀ p ∈ post, p.2 < entry.2) :=
  ⟨by simp [tiedExpressions], dominantExpression_last_max tiedExpressions
    (by simp [tiedExpressions])⟩

/-! ## Scale invariance of the eye ratio -/

section Scale

variable {K : Type} [LinearOrderedField K]

theorem IsEuclidean.scale {dist : Point K → Point K → K} (hd : IsEuclidean dist)
    (k : K) (hk : 0 < k) (p q : Point K) :
    dist (p.scale k) (q.scale k) = k * dist p q := by
  obtain ⟨h0, hsq⟩ := hd p q
  obtain ⟨h0s, hsqs⟩ := hd (p.scale k) (q.scale k)
  have hk0 : 0 ≤ k * dist p q := mul_nonneg hk.le h0
  have : dist (p.scale k) (q.scale k) ^ 2 = (k * dist p q) ^ 2 := by
    rw [hsqs, mul_pow, hsq]
    simp only [Point.scale]
    ring
  exact (pow_left_inj₀ h0s hk0 two_ne_zero).1 this

theorem JSNum.div_fin_scale (k h w : K) (hk : 0 < k) :
    JSNum.div (JSNum.fin (k * h)) (JSNum.fin (k * w)) = JSNum.div (JSNum.fin h) (JSNum.fin w) := by
  have hk' : k ≠ 0 := ne_of_gt hk
  by_cases hw : w = 0
  · subst hw
    by_cases hh : h = 0
    · subst hh
      simp [JSNum.div]
    · have hpos : 0 < k * h ↔ 0 < h := mul_pos_iff_of_pos_left hk
      simp [JSNum.div, hk', hh, hpos]
  · have hkw : k * w ≠ 0 := mul_ne_zero hk' hw
    simp only [JSNum.div, hkw, hw, if_false]
    rw [mul_div_mul_left _ _ hk']

end Scale

theorem isEuclidean_sqrt : IsEuclidean (distanceWith Real.sqrt) := by
  intro p q
  have h : 0 ≤ (p.x - q.x) ^ 2 + (p.y - q.y) ^ 2 := by positivity
  exact ⟨Real.sqrt_nonneg _, Real.sq_sqrt h⟩

/-! ## Rounding and the scaling of the eye ratio -/

section RoundingLemmas

variable {K : Type} [LinearOrderedField K] [FloorRing K]

theorem roundHalfEven_eq (q : K) (n : Int) (h : |q - n| < 1 / 2) : roundHalfEven q = n := by
  rw [abs_lt] at h
  obtain ⟨h1, h2⟩ := h
  unfold roundHalfEven
  by_cases hq : (n : K) ≤ q
  · have hf : Int.floor q = n := by
      rw [Int.floor_eq_iff]
      constructor
      · exact hq
      · linarith
    simp only [hf]
    rw [if_pos (by linarith)]
  · have hq : q < n := not_le.1 hq
    have hf : Int.floor q = n - 1 := by
      rw [Int.floor_eq_iff]
      push_cast
      constructor
      · linarith
      · linarith
    simp only [hf]
    push_cast
    rw [if_neg (by linarith), if_pos (by linarith)]
    ring

theorem log_two_eq (x : K) (e : Int) (he : (2 : K) ^ e ≤ |x|) (he2 : |x| < (2 : K) ^ (e + 1)) :
    Int.log 2 |x| = e := by
  have hpos : 0 < |x| := lt_of_lt_of_le (zpow_pos (by norm_num) e) he
  have h1 : e ≤ Int.log 2 |x| := by
    rw [← Int.zpow_le_iff_le_log (by norm_num) hpos]
    simpa using he
  have h2 : Int.log 2 |x| < e + 1 := by
    rw [← Int.lt_zpow_iff_log_lt (by norm_num) hpos]
    simpa using he2
  omega

/-- The double nearest to `x`, given the binade of `x` and an integer multiple
of the unit in the last place within half a unit of `x`. -/
theorem roundDouble_eq (x : K) (e n : Int) (he : (2 : K) ^ e ≤ |x|)
    (he2 : |x| < (2 : K) ^ (e + 1)) (hmin : -1022 ≤ e)
    (hn : |x / (2 : K) ^ (e - 52) - n| < 1 / 2)
    (hfin : |(n : K) * (2 : K) ^ (e - 52)| < 2 ^ (1024 : Int)) :
    roundDouble x = JSNum.fin ((n : K) * (2 : K) ^ (e - 52)) := by
  unfold roundDouble ulpExponent
  rw [log_two_eq x e he he2, max_eq_left hmin]
  simp only [roundHalfEven_eq _ n hn]
  rw [if_neg (not_le.2 hfin)]

theorem roundDouble_zero : roundDouble (0 : K) = JSNum.fin 0 := by
  unfold roundDouble
  have h : roundHalfEven ((0 : K) / 2 ^ ulpExponent (0 : K)) = 0 := by
    apply roundHalfEven_eq
    simp
  simp only [h]
  rw [if_neg]
  · simp
  · simp
    positivity

end RoundingLemmas

section RoundedLemmas

variable {K : Type} [LinearOrderedField K]

theorem JSNum.addWith_fin (rnd : K → JSNum K) (a b : K) :
    JSNum.addWith rnd (JSNum.fin a) (JSNum.fin b) = rnd (a + b) := rfl

theorem JSNum.divWith_fin (rnd : K → JSNum K) (a b : K) (hb : b ≠ 0) :
    JSNum.divWith rnd (JSNum.fin a) (JSNum.fin b) = rnd (a / b) := by
  simp [JSNum.divWith, JSNum.div, hb, JSNum.rounded]

end RoundedLemmas

theorem distanceWith_sqrt_vertical (x y1 y2 : ℝ) :
    distanceWith Real.sqrt ⟨x, y1⟩ ⟨x, y2⟩ = |y1 - y2| := by
  simp [distanceWith, Real.sqrt_sq_eq_abs]

theorem distanceWith_sqrt_horizontal (x1 x2 y : ℝ) :
    distanceWith Real.sqrt ⟨x1, y⟩ ⟨x2, y⟩ = |x1 - x2| := by
  simp [distanceWith, Real.sqrt_sq_eq_abs]

/-- The eye ratio of an eye on the axes, under any rounding rule. -/
theorem getEyeRatioWith_boxEyeAt (rnd : ℝ → JSNum ℝ) (x1 x2 w h1 h2 : ℝ) :
    getEyeRatioWith rnd (distanceWith Real.sqrt) (boxEyeAt x1 x2 w h1 h2) =
      JSNum.divWith rnd
        (JSNum.divWith rnd (JSNum.addWith rnd (JSNum.fin |h1|) (JSNum.fin |h2|)) (JSNum.fin 2))
        (JSNum.fin |w|) := by
  simp only [getEyeRatioWith, boxEyeAt, distanceWith_sqrt_vertical,
    distanceWith_sqrt_horizontal, sub_zero, zero_sub, abs_neg]

/-- Rounding of a positive value, given its binade and the nearest multiple of
the unit in the last place. -/
theorem roundDouble_pos_eq (x : ℝ) (e n : Int) (y : ℝ) (hx : 0 < x)
    (he : (2 : ℝ) ^ e ≤ x) (he2 : x < (2 : ℝ) ^ (e + 1)) (hmin : -1022 ≤ e)
    (hy : y = (n : ℝ) * (2 : ℝ) ^ (e - 52))
    (hn1 : y - (2 : ℝ) ^ (e - 52) / 2 < x) (hn2 : x < y + (2 : ℝ) ^ (e - 52) / 2)
    (hfin : y < 2 ^ (1024 : Int)) (hy0 : 0 ≤ y) :
    roundDouble x = JSNum.fin y := by
  have hu : (0 : ℝ) < (2 : ℝ) ^ (e - 52) := zpow_pos (by norm_num) _
  rw [hy]
  apply roundDouble_eq x e n
  · rwa [abs_of_pos hx]
  · rwa [abs_of_pos hx]
  · exact hmin
  · rw [abs_lt]
    constructor
    · rw [lt_sub_iff_add_lt, lt_div_iff₀ hu]
      rw [hy] at hn1
      linarith
    · rw [sub_lt_iff_lt_add, div_lt_iff₀ hu]
      rw [hy] at hn2
      linarith
  · rw [← hy, abs_of_nonneg hy0]
    exact hfin

theorem JSNum.rounded_fin {K : Type} (a : JSNum K) : JSNum.rounded JSNum.fin a = a := by
  cases a <;> rfl

section ScaleRounded

variable {K : Type} [LinearOrderedField K]

/-- With the rounding rule `JSNum.fin` the rounded functions are the exact ones. -/
theorem getEyeAspectRatioWith_fin (dist : Point K → Point K → K) (landmarks : Landmarks K) :
    getEyeAspectRatioWith JSNum.fin dist landmarks = getEyeAspectRatio dist landmarks := by
  simp only [getEyeAspectRatioWith, getEyeRatioWith, JSNum.addWith, JSNum.divWith,
    JSNum.rounded_fin, getEyeAspectRatio, getEyeRatio]

theorem heightScales_fin (k : K) (dist : Point K → Point K → K) (eye : Eye K) :
    HeightScales JSNum.fin k dist eye :=
  ⟨rfl, fun _ _ => rfl⟩

/-- Dividing by a width and by `k` times that width give the same number when
the dividend is scaled along. -/
theorem JSNum.div_scale (k w : K) (hk : 0 < k) (a : JSNum K) :
    JSNum.div (JSNum.scale k a) (JSNum.fin (k * w)) = JSNum.div a (JSNum.fin w) := by
  have hsign : 0 ≤ k * w ↔ 0 ≤ w := by
    constructor
    · intro h
      by_contra hw
      exact absurd h (not_le.2 (mul_neg_of_pos_of_neg hk (not_le.1 hw)))
    · exact fun h => mul_nonneg hk.le h
  cases a with
  | fin h => exact JSNum.div_fin_scale k h w hk
  | nan => rfl
  | posInf => simp only [JSNum.scale, JSNum.div, hsign]
  | negInf => simp only [JSNum.scale, JSNum.div, hsign]

theorem getEyeRatioWith_scale (rnd : K → JSNum K) {dist : Point K → Point K → K}
    (hd : IsEuclidean dist) (k : K) (hk : 0 < k) (eye : Eye K)
    (hs : HeightScales rnd k dist eye) :
    getEyeRatioWith rnd dist (eye.scale k) = getEyeRatioWith rnd dist eye := by
  obtain ⟨hsum, hhalf⟩ := hs
  have h2 : (2 : K) ≠ 0 := two_ne_zero
  have hheight : JSNum.divWith rnd
      (JSNum.addWith rnd (JSNum.fin (k * dist eye.p1 eye.p5))
        (JSNum.fin (k * dist eye.p2 eye.p4))) (JSNum.fin 2) =
      JSNum.scale k (JSNum.divWith rnd
        (JSNum.addWith rnd (JSNum.fin (dist eye.p1 eye.p5)) (JSNum.fin (dist eye.p2 eye.p4)))
        (JSNum.fin 2)) := by
    rw [JSNum.addWith_fin, JSNum.addWith_fin, ← mul_add, hsum]
    cases hr : rnd (dist eye.p1 eye.p5 + dist eye.p2 eye.p4) with
    | fin s =>
      simp only [JSNum.scale]
      rw [JSNum.divWith_fin _ _ _ h2, JSNum.divWith_fin _ _ _ h2, mul_div_assoc]
      exact hhalf s hr
    | nan => rfl
    | posInf => simp [JSNum.scale, JSNum.divWith, JSNum.div, JSNum.rounded]
    | negInf => simp [JSNum.scale, JSNum.divWith, JSNum.div, JSNum.rounded]
  simp only [getEyeRatioWith, Eye.scale, hd.scale k hk]
  rw [hheight]
  simp only [JSNum.divWith, JSNum.div_scale k _ hk]

end ScaleRounded

theorem two_pow_mul_ulp {K : Type} [LinearOrderedField K] (e : Int) :
    ((2 ^ 53 : Int) : K) * (2 : K) ^ (e - 52) = (2 : K) ^ (e + 1) := by
  have h : ((2 ^ 53 : Int) : K) = (2 : K) ^ (53 : Int) := by norm_num
  rw [h, ← zpow_add₀ (by norm_num : (2 : K) ≠ 0)]
  congr 1
  ring

section PowerOfTwo

variable {K : Type} [LinearOrderedField K] [FloorRing K]

theorem roundHalfEven_bounds (q : K) :
    Int.floor q ≤ roundHalfEven q ∧ roundHalfEven q ≤ Int.ceil q := by
  unfold roundHalfEven
  have hfc : Int.floor q ≤ Int.ceil q := Int.floor_le_ceil q
  have hup : ¬ q - (Int.floor q : K) < 1 / 2 → Int.floor q + 1 ≤ Int.ceil q := by
    intro h
    have hlt : (Int.floor q : K) < q := by
      have : (1 : K) / 2 ≤ q - Int.floor q := not_lt.1 h
      have h0 : (0 : K) < 1 / 2 := by norm_num
      linarith
    have : Int.floor q < Int.ceil q := by
      rw [Int.lt_ceil]
      exact hlt
    omega
  by_cases h1 : q - (Int.floor q : K) < 1 / 2
  · simp only [h1, if_true]
    exact ⟨le_refl _, hfc⟩
  · have h3 := hup h1
    simp only [h1, if_false]
    split
    · exact ⟨by omega, h3⟩
    · split
      · exact ⟨le_refl _, hfc⟩
      · exact ⟨by omega, h3⟩

theorem abs_roundHalfEven_le (q : K) (N : Int) (h : |q| ≤ N) :
    |((roundHalfEven q : Int) : K)| ≤ N := by
  obtain ⟨h1, h2⟩ := roundHalfEven_bounds q
  rw [abs_le] at h
  have hf : -N ≤ Int.floor q := by
    rw [Int.le_floor]
    push_cast
    exact h.1
  have hc : Int.ceil q ≤ N := by
    rw [Int.ceil_le]
    exact h.2
  rw [abs_le]
  constructor
  · have : -N ≤ roundHalfEven q := le_trans hf h1
    exact_mod_cast this
  · have : roundHalfEven q ≤ N := le_trans h2 hc
    exact_mod_cast this

/-- In the normal range nothing overflows: the result is the nearest multiple
of the unit in the last place. -/
theorem roundDouble_normal (x : K) (e : Int) (he : (2 : K) ^ e ≤ |x|)
    (he2 : |x| < (2 : K) ^ (e + 1)) (hmin : -1022 ≤ e) (hmax : e ≤ 1022) :
    roundDouble x =
      JSNum.fin ((roundHalfEven (x / (2 : K) ^ (e - 52)) : K) * (2 : K) ^ (e - 52)) := by
  have hu : (0 : K) < (2 : K) ^ (e - 52) := zpow_pos (by norm_num) _
  have hq : |x / (2 : K) ^ (e - 52)| ≤ ((2 ^ 53 : Int) : K) := by
    rw [abs_div, abs_of_pos hu, div_le_iff₀ hu]
    rw [two_pow_mul_ulp]
    exact he2.le
  have hm := abs_roundHalfEven_le _ _ hq
  have hy : |(roundHalfEven (x / (2 : K) ^ (e - 52)) : K) * (2 : K) ^ (e - 52)| <
      (2 : K) ^ (1024 : Int) := by
    rw [abs_mul, abs_of_pos hu]
    calc |(roundHalfEven (x / (2 : K) ^ (e - 52)) : K)| * (2 : K) ^ (e - 52)
        ≤ ((2 ^ 53 : Int) : K) * (2 : K) ^ (e - 52) := mul_le_mul_of_nonneg_right hm hu.le
      _ = (2 : K) ^ (e + 1) := two_pow_mul_ulp e
      _ < (2 : K) ^ (1024 : Int) := zpow_lt_zpow_right₀ (by norm_num) (by omega)
  unfold roundDouble ulpExponent
  rw [log_two_eq x e he he2, max_eq_left hmin]
  simp only []
  rw [if_neg (not_le.2 hy)]

/-- In double arithmetic rounding commutes with the multiplication by a power
of two, as long as the value and its multiple stay in the normal range. -/
theorem roundDouble_scalesAt_two_zpow (n : Int) (x : K)
    (hlo : (2 : K) ^ (-1022 : Int) ≤ |x|) (hhi : |x| < (2 : K) ^ (1023 : Int))
    (hlo2 : (2 : K) ^ (-1022 : Int) ≤ (2 : K) ^ n * |x|)
    (hhi2 : (2 : K) ^ n * |x| < (2 : K) ^ (1023 : Int)) :
    ScalesAt roundDouble ((2 : K) ^ n) x := by
  have h2 : (2 : K) ≠ 0 := by norm_num
  have h12 : (1 : K) < 2 := by norm_num
  have hk : (0 : K) < (2 : K) ^ n := zpow_pos (by norm_num) _
  have hpos : 0 < |x| := lt_of_lt_of_le (zpow_pos (by norm_num) _) hlo
  have he : (2 : K) ^ (Int.log 2 |x|) ≤ |x| := by
    simpa using Int.zpow_log_le_self (b := 2) (by norm_num) hpos
  have he2 : |x| < (2 : K) ^ (Int.log 2 |x| + 1) := by
    simpa using Int.lt_zpow_succ_log_self (b := 2) (by norm_num) |x|
  generalize Int.log 2 |x| = e at he he2
  have hmin : -1022 ≤ e := by
    have := lt_of_le_of_lt hlo he2
    rw [zpow_lt_zpow_iff_right₀ h12] at this
    omega
  have hmax : e ≤ 1022 := by
    have := lt_of_le_of_lt he hhi
    rw [zpow_lt_zpow_iff_right₀ h12] at this
    omega
  have hx2 : |(2 : K) ^ n * x| = (2 : K) ^ n * |x| := by rw [abs_mul, abs_of_pos hk]
  have he' : (2 : K) ^ (e + n) ≤ |(2 : K) ^ n * x| := by
    rw [hx2, zpow_add₀ h2, mul_comm]
    exact mul_le_mul_of_nonneg_left he hk.le
  have he2' : |(2 : K) ^ n * x| < (2 : K) ^ (e + n + 1) := by
    rw [hx2, show e + n + 1 = n + (e + 1) by ring, zpow_add₀ h2]
    exact mul_lt_mul_of_pos_left he2 hk
  have hmin' : -1022 ≤ e + n := by
    have := lt_of_le_of_lt hlo2 (hx2 ▸ he2')
    rw [zpow_lt_zpow_iff_right₀ h12] at this
    omega
  have hmax' : e + n ≤ 1022 := by
    have := lt_of_le_of_lt (hx2 ▸ he') hhi2
    rw [zpow_lt_zpow_iff_right₀ h12] at this
    omega
  have hq : (2 : K) ^ n * x / (2 : K) ^ (e + n - 52) = x / (2 : K) ^ (e - 52) := by
    rw [show e + n - 52 = n + (e - 52) by ring, zpow_add₀ h2]
    exact mul_div_mul_left _ _ (ne_of_gt hk)
  unfold ScalesAt
  rw [roundDouble_normal _ (e + n) he' he2' hmin' hmax', roundDouble_normal x e he he2 hmin hmax,
    hq]
  simp only [JSNum.scale]
  congr 1
  rw [show e + n - 52 = n + (e - 52) by ring, zpow_add₀ h2]
  ring

theorem roundDouble_scalesAt_zero (k : K) : ScalesAt roundDouble k 0 := by
  unfold ScalesAt
  rw [mul_zero, roundDouble_zero]
  simp [JSNum.scale]

end PowerOfTwo

/-- The ratio of two equal eyes on the axes in double arithmetic, from the five roundings
it takes: the sum of the lid heights, its half, the quotient by the width, the
sum over both eyes and its half. -/
theorem getEyeAspectRatioWith_box (x1 x2 w h1 h2 s h r t : ℝ) (hw : 0 < w)
    (hh1 : 0 ≤ h1) (hh2 : 0 ≤ h2)
    (hs : roundDouble (h1 + h2) = JSNum.fin s)
    (hh : roundDouble (s / 2) = JSNum.fin h)
    (hr : roundDouble (h / w) = JSNum.fin r)
    (ht : roundDouble (r + r) = JSNum.fin t)
    (hm : roundDouble (t / 2) = JSNum.fin r) :
    getEyeAspectRatioWith roundDouble (distanceWith Real.sqrt) (boxLandmarksAt x1 x2 w h1 h2) =
      JSNum.fin r := by
  have h2' : (2 : ℝ) ≠ 0 := two_ne_zero
  have hw' : w ≠ 0 := ne_of_gt hw
  simp only [getEyeAspectRatioWith, boxLandmarksAt, getEyeRatioWith_boxEyeAt, JSNum.addWith_fin,
    abs_of_nonneg hh1, abs_of_nonneg hh2, abs_of_pos hw,
    hs, JSNum.divWith_fin _ _ _ h2', hh, JSNum.divWith_fin _ _ _ hw', hr, ht, hm]

theorem boxLandmarksAt_scale {K : Type} [LinearOrderedField K] (k x1 x2 w h1 h2 : K) :
    (boxLandmarksAt x1 x2 w h1 h2).scale k =
      boxLandmarksAt (k * x1) (k * x2) (k * w) (k * h1) (k * h2) := by
  simp [Landmarks.scale, Eye.scale, Point.scale, boxLandmarksAt, boxEyeAt]

/-- The ratio of the eye 5 wide and 1 high in double arithmetic: the double nearest to 0.2. -/
theorem ratio_double_five_by_one :
    getEyeAspectRatioWith roundDouble (distanceWith Real.sqrt) (boxLandmarksAt 1 2 5 1 1) =
      JSNum.fin (7205759403792794 / 2 ^ 55) := by
  apply getEyeAspectRatioWith_box 1 2 5 1 1 2 1 (7205759403792794 / 2 ^ 55)
    (7205759403792794 / 2 ^ 54)
  · norm_num
  · norm_num
  · norm_num
  · apply roundDouble_pos_eq _ 1 (2 ^ 52) <;> norm_num
  · apply roundDouble_pos_eq _ 0 (2 ^ 52) <;> norm_num
  · apply roundDouble_pos_eq _ (-3) 7205759403792794 <;> norm_num
  · apply roundDouble_pos_eq _ (-2) 7205759403792794 <;> norm_num
  · apply roundDouble_pos_eq _ (-3) 7205759403792794 <;> norm_num

/-- C4, refuted as stated, in the double arithmetic of the script with the exact
Euclidean distance.  First: an eye 5 wide and 1 high has the ratio `0.2` (the
double nearest to it); with every coordinate multiplied by the double `0.3` (the
products `0`, `0.3`, `0.6` and `1.5` as doubles) the ratio is the next double
below.  Second, with products that are exact: an eye 1 wide whose vertical spans
are `1` and `3 / 2 ^ 55` has the ratio `1 / 2`, and multiplied by 3 the next
double above. -/
theorem getEyeAspectRatio_double_not_scale_invariant :
    (IsEuclidean (distanceWith Real.sqrt) ∧ (0 : ℝ) < 5404319552844595 / 2 ^ 54 ∧ (0 : ℝ) < 3) ∧
    ((roundDouble ((5404319552844595 / 2 ^ 54 : ℝ) * 0) = JSNum.fin 0 ∧
      roundDouble ((5404319552844595 / 2 ^ 54 : ℝ) * 1) = JSNum.fin (5404319552844595 / 2 ^ 54) ∧
      roundDouble ((5404319552844595 / 2 ^ 54 : ℝ) * 2) = JSNum.fin (5404319552844595 / 2 ^ 53) ∧
      roundDouble ((5404319552844595 / 2 ^ 54 : ℝ) * 5) = JSNum.fin (3 / 2)) ∧
    getEyeAspectRatioWith roundDouble (distanceWith Real.sqrt) (boxLandmarksAt 1 2 5 1 1) =
      JSNum.fin (7205759403792794 / 2 ^ 55) ∧
    getEyeAspectRatioWith roundDouble (distanceWith Real.sqrt)
      (boxLandmarksAt (5404319552844595 / 2 ^ 54) (5404319552844595 / 2 ^ 53) (3 / 2)
        (5404319552844595 / 2 ^ 54) (5404319552844595 / 2 ^ 54)) =
      JSNum.fin (7205759403792793 / 2 ^ 55)) ∧
    (getEyeAspectRatioWith roundDouble (distanceWith Real.sqrt)
      (boxLandmarksAt 1 2 1 1 (3 / 2 ^ 55)) = JSNum.fin (1 / 2) ∧
    getEyeAspectRatioWith roundDouble (distanceWith Real.sqrt)
      ((boxLandmarksAt 1 2 1 1 (3 / 2 ^ 55)).scale 3) = JSNum.fin (4503599627370497 / 2 ^ 53) ∧
    getEyeAspectRatioWith roundDouble (distanceWith Real.sqrt)
      ((boxLandmarksAt 1 2 1 1 (3 / 2 ^ 55)).scale 3) ≠
    getEyeAspectRatioWith roundDouble (distanceWith Real.sqrt)
      (boxLandmarksAt 1 2 1 1 (3 / 2 ^ 55))) := by
  have hscaled : getEyeAspectRatioWith roundDouble (distanceWith Real.sqrt)
      (boxLandmarksAt (5404319552844595 / 2 ^ 54) (5404319552844595 / 2 ^ 53) (3 / 2)
        (5404319552844595 / 2 ^ 54) (5404319552844595 / 2 ^ 54)) =
      JSNum.fin (7205759403792793 / 2 ^ 55) := by
    apply getEyeAspectRatioWith_box _ _ _ _ _ (5404319552844595 / 2 ^ 53)
      (5404319552844595 / 2 ^ 54) (7205759403792793 / 2 ^ 55) (7205759403792793 / 2 ^ 54)
    · norm_num
    · norm_num
    · norm_num
    · apply roundDouble_pos_eq _ (-1) 5404319552844595 <;> norm_num
    · apply roundDouble_pos_eq _ (-2) 5404319552844595 <;> norm_num
    · apply roundDouble_pos_eq _ (-3) 7205759403792793 <;> norm_num
    · apply roundDouble_pos_eq _ (-2) 7205759403792793 <;> norm_num
    · apply roundDouble_pos_eq _ (-3) 7205759403792793 <;> norm_num
  have hthin : getEyeAspectRatioWith roundDouble (distanceWith Real.sqrt)
      (boxLandmarksAt 1 2 1 1 (3 / 2 ^ 55)) = JSNum.fin (1 / 2) := by
    apply getEyeAspectRatioWith_box _ _ _ _ _ 1 (1 / 2) (1 / 2) 1
    · norm_num
    · norm_num
    · norm_num
    · apply roundDouble_pos_eq _ 0 (2 ^ 52) <;> norm_num
    · apply roundDouble_pos_eq _ (-1) (2 ^ 52) <;> norm_num
    · apply roundDouble_pos_eq _ (-1) (2 ^ 52) <;> norm_num
    · apply roundDouble_pos_eq _ 0 (2 ^ 52) <;> norm_num
    · apply roundDouble_pos_eq _ (-1) (2 ^ 52) <;> norm_num
  have hthin3 : getEyeAspectRatioWith roundDouble (distanceWith Real.sqrt)
      ((boxLandmarksAt 1 2 1 1 (3 / 2 ^ 55)).scale 3) =
      JSNum.fin (4503599627370497 / 2 ^ 53) := by
    rw [boxLandmarksAt_scale]
    apply getEyeAspectRatioWith_box _ _ _ _ _ (6755399441055745 / 2 ^ 51)
      (6755399441055745 / 2 ^ 52) (4503599627370497 / 2 ^ 53) (4503599627370497 / 2 ^ 52)
    · norm_num
    · norm_num
    · norm_num
    · apply roundDouble_pos_eq _ 1 6755399441055745 <;> norm_num
    · apply roundDouble_pos_eq _ 0 6755399441055745 <;> norm_num
    · apply roundDouble_pos_eq _ (-1) 4503599627370497 <;> norm_num
    · apply roundDouble_pos_eq _ 0 4503599627370497 <;> norm_num
    · apply roundDouble_pos_eq _ (-1) 4503599627370497 <;> norm_num
  refine ⟨⟨isEuclidean_sqrt, by norm_num, by norm_num⟩,
    ⟨⟨?_, ?_, ?_, ?_⟩, ratio_double_five_by_one, hscaled⟩, hthin, hthin3, ?_⟩
  · rw [mul_zero]; exact roundDouble_zero
  · apply roundDouble_pos_eq _ (-2) 5404319552844595 <;> norm_num
  · apply roundDouble_pos_eq _ (-1) 5404319552844595 <;> norm_num
  · apply roundDouble_pos_eq _ 0 (3 * 2 ^ 51) <;> norm_num
  · rw [hthin, hthin3]
    intro h
    injection h with h
    norm_num at h

section ScaleClaim

variable {K : Type} [LinearOrderedField K]

/-- C4 (amended): with the exact Euclidean distance and a positive factor `k`,
multiplying every landmark coordinate by `k` leaves the ratio unchanged when the
additions and divisions of `getEyeAspectRatio` are exact; and under any rounding
of them, double precision included, it leaves the ratio unchanged whenever the
two roundings of each eye's lid height commute with the multiplication by `k`. -/
theorem getEyeAspectRatio_scale_invariant (dist : Point K → Point K → K)
    (hd : IsEuclidean dist) (k : K) (hk : 0 < k) (landmarks : Landmarks K) :
    getEyeAspectRatio dist (landmarks.scale k) = getEyeAspectRatio dist landmarks ∧
    ∀ rnd : K → JSNum K,
      HeightScales rnd k dist landmarks.getLeftEye →
      HeightScales rnd k dist landmarks.getRightEye →
      getEyeAspectRatioWith rnd dist (landmarks.scale k) =
        getEyeAspectRatioWith rnd dist landmarks := by
  have hgen : ∀ rnd : K → JSNum K,
      HeightScales rnd k dist landmarks.getLeftEye →
      HeightScales rnd k dist landmarks.getRightEye →
      getEyeAspectRatioWith rnd dist (landmarks.scale k) =
        getEyeAspectRatioWith rnd dist landmarks := by
    intro rnd hl hr
    simp only [getEyeAspectRatioWith, Landmarks.scale, getEyeRatioWith_scale rnd hd k hk _ hl,
      getEyeRatioWith_scale rnd hd k hk _ hr]
  refine ⟨?_, hgen⟩
  rw [← getEyeAspectRatioWith_fin, ← getEyeAspectRatioWith_fin]
  exact hgen JSNum.fin (heightScales_fin _ _ _) (heightScales_fin _ _ _)

end ScaleClaim

theorem heightScales_double_five_by_one :
    HeightScales roundDouble (2 : ℝ) (distanceWith Real.sqrt) (boxEyeAt 1 2 5 1 1) := by
  have hsum : distanceWith Real.sqrt (boxEyeAt (1 : ℝ) 2 5 1 1).p1 (boxEyeAt (1 : ℝ) 2 5 1 1).p5 +
      distanceWith Real.sqrt (boxEyeAt (1 : ℝ) 2 5 1 1).p2 (boxEyeAt (1 : ℝ) 2 5 1 1).p4 = 2 := by
    simp only [boxEyeAt, distanceWith_sqrt_vertical]
    norm_num
  have hr2 : roundDouble (2 : ℝ) = JSNum.fin 2 := by
    apply roundDouble_pos_eq _ 1 (2 ^ 52) <;> norm_num
  have htwo : ∀ x : ℝ, (2 : ℝ) ^ (-1022 : Int) ≤ |x| → |x| < (2 : ℝ) ^ (1022 : Int) →
      ScalesAt roundDouble (2 : ℝ) x := by
    intro x hlo hhi
    have h := roundDouble_scalesAt_two_zpow (K := ℝ) 1 x hlo
      (lt_trans hhi (zpow_lt_zpow_right₀ (by norm_num) (by norm_num)))
      (le_trans hlo (by rw [zpow_one]; linarith [abs_nonneg x]))
      (by
        rw [zpow_one]
        have : (2 : ℝ) ^ (1023 : Int) = 2 * (2 : ℝ) ^ (1022 : Int) := by
          rw [show (1023 : Int) = 1 + 1022 by norm_num, zpow_add₀ (by norm_num : (2 : ℝ) ≠ 0),
            zpow_one]
        rw [this]
        linarith)
    simpa using h
  unfold HeightScales
  rw [hsum]
  refine ⟨htwo 2 ?_ ?_, ?_⟩
  · rw [abs_of_pos (by norm_num : (0 : ℝ) < 2)]
    exact le_trans (zpow_le_zpow_right₀ (by norm_num) (by norm_num : (-1022 : Int) ≤ 1))
      (by norm_num)
  · rw [abs_of_pos (by norm_num : (0 : ℝ) < 2)]
    exact lt_of_le_of_lt (by norm_num : (2 : ℝ) ≤ (2 : ℝ) ^ (1 : Int))
      (zpow_lt_zpow_right₀ (by norm_num) (by norm_num))
  · intro s hs
    rw [hr2] at hs
    injection hs with hs
    subst hs
    apply htwo
    · rw [abs_of_pos (by norm_num : (0 : ℝ) < 2 / 2)]
      exact le_trans (zpow_le_zpow_right₀ (by norm_num) (by norm_num : (-1022 : Int) ≤ 0))
        (by norm_num)
    · rw [abs_of_pos (by norm_num : (0 : ℝ) < 2 / 2)]
      exact lt_of_le_of_lt (by norm_num : (2 : ℝ) / 2 ≤ (2 : ℝ) ^ (0 : Int))
        (zpow_lt_zpow_right₀ (by norm_num) (by norm_num))

/-- C4 (amended), at the real Euclidean distance, double rounding, the factor 2
and the eye 5 wide and 1 high: the doubled eye has the same ratio, the double
nearest to 0.2. -/
theorem getEyeAspectRatio_scale_invariant_example :
    (IsEuclidean (distanceWith Real.sqrt) ∧ (0 : ℝ) < 2 ∧
      HeightScales roundDouble (2 : ℝ) (distanceWith Real.sqrt) (boxEyeAt 1 2 5 1 1)) ∧
    getEyeAspectRatio (distanceWith Real.sqrt) ((boxLandmarksAt (1 : ℝ) 2 5 1 1).scale 2) =
      getEyeAspectRatio (distanceWith Real.sqrt) (boxLandmarksAt (1 : ℝ) 2 5 1 1) ∧
    getEyeAspectRatioWith roundDouble (distanceWith Real.sqrt)
      ((boxLandmarksAt (1 : ℝ) 2 5 1 1).scale 2) = JSNum.fin (7205759403792794 / 2 ^ 55) := by
  have h := getEyeAspectRatio_scale_invariant (distanceWith Real.sqrt) isEuclidean_sqrt 2
    (by norm_num) (boxLandmarksAt (1 : ℝ) 2 5 1 1)
  refine ⟨⟨isEuclidean_sqrt, by norm_num, heightScales_double_five_by_one⟩, h.1, ?_⟩
  rw [h.2 roundDouble heightScales_double_five_by_one heightScales_double_five_by_one]
  exact ratio_double_five_by_one

/-! ## The capture controller -/

/-- C3, refuted as stated: on the freshly loaded page `stream` is undefined and
`stopWebcam` throws a `TypeError` instead of returning. -/
theorem stopWebcam_throws_without_stream :
    Page.initial.stream = none ∧
    stopWebcam Page.initial =
      Except.error (typeError "Cannot read properties of undefined (reading getTracks)") ∧
    ¬ ∃ page, stopWebcam Page.initial = Except.ok page := by
  refine ⟨rfl, rfl, ?_⟩
  rintro ⟨page, h⟩
  simp [stopWebcam, Page.initial] at h

/-- C3 (amended): `stopWebcam` has no guard of its own: it returns normally
exactly when `stream` holds a handle, then with every track stopped, the video
source cleared, start enabled and stop disabled; and it throws a `TypeError`
exactly when `stream` is undefined. -/
theorem stopWebcam_returns_iff_stream (page : Page) :
    ((∃ page', stopWebcam page = Except.ok page' ∧
        (∀ stream ∈ page'.stream, ∀ track ∈ stream.getTracks, track.stopped = true) ∧
        page'.srcObject = none ∧ page'.startBtnDisabled = false ∧
        page'.stopBtnDisabled = true ∧ page'.status = "Webcam stopped!") ↔
      ∃ stream, page.stream = some stream) ∧
    ((∃ e, stopWebcam page = Except.error e ∧ e.name = "TypeError") ↔ page.stream = none) := by
  cases hs : page.stream with
  | none => simp [stopWebcam, hs, typeError]
  | some stream =>
    have hok : stopWebcam page = Except.ok
        { page with
          stream := some { getTracks := stream.getTracks.map Track.stop }
          srcObject := none
          startBtnDisabled := false
          stopBtnDisabled := true
          status := "Webcam stopped!" } := by
      simp only [stopWebcam, hs]
    refine ⟨⟨fun _ => ⟨stream, rfl⟩, fun _ => ⟨_, hok, ?_, rfl, rfl, rfl, rfl⟩⟩,
      ⟨?_, fun h => by simp at h⟩⟩
    · intro stream' hmem track htrack
      simp only [Option.mem_def, Option.some.injEq] at hmem
      subst hmem
      simp only [List.mem_map] at htrack
      obtain ⟨t, _, rfl⟩ := htrack
      rfl
    · rintro ⟨e, he, _⟩
      rw [hok] at he
      exact absurd he (by simp)

theorem click_stopGated (page page' : Page) (c : Click) (hg : StopGated page)
    (h : click page c = Except.ok page') : StopGated page' := by
  cases c with
  | start g =>
    simp only [click] at h
    split at h
    · injection h with h; subst h; exact hg
    · injection h with h; subst h
      cases g with
      | ok userMedia => intro _; simp [startWebcam]
      | error e => exact hg
  | stop =>
    simp only [click] at h
    split at h
    · injection h with h; subst h; exact hg
    · cases hs : page.stream with
      | none => simp [stopWebcam, hs] at h
      | some stream =>
        simp only [stopWebcam, hs] at h
        injection h with h; subst h
        intro hd; simp at hd

theorem click_ok_of_stopGated (page : Page) (c : Click) (hg : StopGated page) :
    ∃ page', click page c = Except.ok page' := by
  cases c with
  | start g => simp only [click]; split <;> exact ⟨_, rfl⟩
  | stop =>
    simp only [click]
    split
    · exact ⟨_, rfl⟩
    · rename_i hd
      have hd : page.stopBtnDisabled = false := by simpa using hd
      cases hs : page.stream with
      | none => exact absurd hs (hg hd)
      | some stream => simp only [stopWebcam, hs]; exact ⟨_, rfl⟩

/-- Through the two buttons no click sequence makes `stopWebcam` throw, as long
as the stop button starts out gated. -/
theorem clicks_never_throw (cs : List Click) (page : Page) (hg : StopGated page) :
    ∃ page', clicks page cs = Except.ok page' ∧ StopGated page' := by
  induction cs generalizing page with
  | nil => exact ⟨page, rfl, hg⟩
  | cons c rest ih =>
    obtain ⟨page1, h1⟩ := click_ok_of_stopGated page c hg
    obtain ⟨page2, h2, hg2⟩ := ih page1 (click_stopGated page page1 c hg h1)
    exact ⟨page2, by simp [clicks, h1, h2], hg2⟩

/-! ## Scheduling of the detection loops -/

/-- C6, refuted as stated: after the play event has fired twice and both model
loads have succeeded, two analysis loops are live and two inference calls are
in flight. -/
theorem two_plays_two_loops :
    (Sched.run [Event.play, Event.modelsLoaded true, Event.play,
      Event.modelsLoaded true]).live = 2 ∧
    (Sched.run [Event.play, Event.modelsLoaded true, Event.play,
      Event.modelsLoaded true]).inFlight = 2 ∧
    ¬ (Sched.run [Event.play, Event.modelsLoaded true, Event.play,
      Event.modelsLoaded true]).live ≤ 1 := by
  decide

theorem Sched.step_total_le (s : Sched) (e : Event) :
    (s.step e).loading + (s.step e).live ≤
      s.loading + s.live + (if e = Event.play then 1 else 0) := by
  cases e with
  | play => simp only [Sched.step, Sched.live, if_true]; omega
  | modelsLoaded ok =>
    simp only [Sched.step, Sched.live]
    split
    · simp
    · cases ok <;> simp only [Bool.false_eq_true, if_false, if_true] <;> omega
  | inferenceSettled =>
    simp only [Sched.step, Sched.live]
    split
    · simp
    · simp; omega
  | animationFrame => simp only [Sched.step, Sched.live]; simp

theorem Sched.foldl_total_le (events : List Event) (s : Sched) :
    (events.foldl Sched.step s).loading + (events.foldl Sched.step s).live ≤
      s.loading + s.live + events.count Event.play := by
  induction events generalizing s with
  | nil => simp
  | cons e rest ih =>
    have h1 := ih (s.step e)
    have h2 := Sched.step_total_le s e
    rw [List.foldl_cons, List.count_cons]
    by_cases he : e = Event.play
    · subst he
      simp only [if_true] at h2
      simp only [beq_self_eq_true, if_true]
      omega
    · have hne : (e == Event.play) = false := by simpa using he
      simp only [he, if_false] at h2
      simp only [hne]
      simp only [Bool.false_eq_true, if_false]
      omega

/-- C6 (amended): in every state reachable from page load the number of live
analysis loops, and with it the number of inference calls in flight, is at most
the number of times the play event has fired; a cycle that finishes and
reschedules itself keeps the number of live loops unchanged. -/
theorem live_loops_le_plays (events : List Event) :
    (Sched.run events).inFlight ≤ (Sched.run events).live ∧
    (Sched.run events).live ≤ events.count Event.play ∧
    ((Sched.run events).step Event.inferenceSettled).live = (Sched.run events).live := by
  refine ⟨by simp [Sched.inFlight, Sched.live], ?_, ?_⟩
  · have h := Sched.foldl_total_le events Sched.initial
    simp only [Sched.run]
    simp only [Sched.initial, Sched.live] at h ⊢
    omega
  · simp only [Sched.step, Sched.live]
    split
    · rfl
    · dsimp only; omega

/-! ## One cycle of the detection loop -/

theorem drawDebug_fields {K : Type} (settled : Settled K) (page : Page) :
    (drawDebug settled page).2.scheduled = page.scheduled ∧
    (drawDebug settled page).2.console = page.console ∧
    (drawDebug settled page).2.status = page.status ∧
    (drawDebug settled page).2.calls = page.calls := by
  unfold drawDebug
  cases settled.drawFaceLandmarks <;> cases settled.drawDetections <;> simp

section CycleClaims

variable {K : Type} [LinearOrderedField K] [FloorRing K]

/-- The page a cycle leaves when the first detection has a dominant expression. -/
theorem detectBody_of_dominant (lib : Lib K) (isDebugMode : Bool) (d : Detection K)
    (rest : List (Detection K)) (l m : Except JSError Unit) (page : Page) (dominant : String)
    (hdom : dominantExpression d.expressions = Except.ok dominant) :
    (detectBody lib isDebugMode
      { detectAllFaces := Except.ok (d :: rest), drawFaceLandmarks := l, drawDetections := m }
      page).2.status =
      String.intercalate "<br>" (statusMessages lib.toUpperCase d dominant
        (checkIntoxication lib.euclideanDistance d d.landmarks)) ∧
    (detectBody lib isDebugMode
      { detectAllFaces := Except.ok (d :: rest), drawFaceLandmarks := l, drawDetections := m }
      page).2.calls = page.calls ++ [Call.checkIntoxication, Call.getEyeAspectRatio] ∧
    (detectBody lib isDebugMode
      { detectAllFaces := Except.ok (d :: rest), drawFaceLandmarks := l, drawDetections := m }
      page).2.scheduled = page.scheduled ∧
    (detectBody lib isDebugMode
      { detectAllFaces := Except.ok (d :: rest), drawFaceLandmarks := l, drawDetections := m }
      page).2.console = page.console := by
  cases isDebugMode with
  | false => simp [detectBody, hdom]
  | true =>
    have hdraw := drawDebug_fields
      { detectAllFaces := Except.ok (d :: rest), drawFaceLandmarks := l, drawDetections := m }
      { page with
        overlay := []
        calls := page.calls ++ [Call.checkIntoxication, Call.getEyeAspectRatio]
        status := String.intercalate "<br>" (statusMessages lib.toUpperCase d dominant
          (checkIntoxication lib.euclideanDistance d d.landmarks)) }
    simp only [detectBody, hdom, if_true]
    exact ⟨hdraw.2.2.1, hdraw.2.2.2, hdraw.1, hdraw.2.1⟩

/-- The `try` block leaves the registered callbacks and the console alone. -/
theorem detectBody_fields (lib : Lib K) (isDebugMode : Bool) (settled : Settled K)
    (page : Page) :
    (detectBody lib isDebugMode settled page).2.scheduled = page.scheduled ∧
    (detectBody lib isDebugMode settled page).2.console = page.console := by
  obtain ⟨faces, l, m⟩ := settled
  cases faces with
  | error e => simp [detectBody]
  | ok detections =>
    cases detections with
    | nil => simp [detectBody]
    | cons d rest =>
      rcases hdom : dominantExpression d.expressions with e | dominant
      · simp [detectBody, hdom]
      · have h := detectBody_of_dominant lib isDebugMode d rest l m page dominant hdom
        exact ⟨h.2.2.1, h.2.2.2⟩

/-- C7: every `detectFeatures` cycle ends by rescheduling itself exactly once,
whatever happened in it: the `try` block may return or throw, an error it throws
is written to the console and goes no further, and the reduction on an empty
distribution is one of the errors so caught. -/
theorem detectFeatures_reschedules_once (lib : Lib K) (isDebugMode : Bool)
    (settled : Settled K) (page : Page) :
    (detectFeatures lib isDebugMode settled page).scheduled = page.scheduled + 1 ∧
    (detectFeatures lib isDebugMode settled page).console =
      page.console ++ (detectBody lib isDebugMode settled page).1.toList ∧
    (∀ (d : Detection K) (rest : List (Detection K)) (l m : Except JSError Unit),
      (detectBody lib isDebugMode
        { detectAllFaces := Except.ok ({ d with expressions := [] } :: rest),
          drawFaceLandmarks := l, drawDetections := m } page).1 =
        some (typeError "Reduce of empty array with no initial value")) := by
  have hf := detectBody_fields lib isDebugMode settled page
  refine ⟨?_, ?_, ?_⟩
  · unfold detectFeatures
    rcases hb : detectBody lib isDebugMode settled page with ⟨_ | e, page'⟩ <;>
      rw [hb] at hf <;> simp [show page'.scheduled = page.scheduled from hf.1]
  · unfold detectFeatures
    rcases hb : detectBody lib isDebugMode settled page with ⟨_ | e, page'⟩ <;>
      rw [hb] at hf <;> simp [show page'.console = page.console from hf.2]
  · intro d rest l m
    simp [detectBody, dominantExpression, reduce]

/-- C9: when the inference call returns zero detections, the cycle sets the
status to exactly `"No face detected"` and calls neither `checkIntoxication` nor
`getEyeAspectRatio`. -/
theorem detectFeatures_no_face (lib : Lib K) (isDebugMode : Bool)
    (l m : Except JSError Unit) (page : Page) :
    (detectFeatures lib isDebugMode
      { detectAllFaces := Except.ok [], drawFaceLandmarks := l, drawDetections := m }
      page).status = "No face detected" ∧
    (detectFeatures lib isDebugMode
      { detectAllFaces := Except.ok [], drawFaceLandmarks := l, drawDetections := m }
      page).calls = page.calls := by
  simp [detectFeatures, detectBody]

theorem mathRound_eq_round (x : K) : mathRound x = round x := by
  rw [mathRound, round_eq]

/-- C8: with at least one detection, the status rendered by `detectFeatures` is
built from the first detection only and is the `<br>`-join of the age line (age
rounded to the nearest integer), the gender line, the expression line (dominant
label with its first character upper-cased), the sobriety line, and, exactly
when the verdict is true, a fifth line with the signs joined by a comma and a
space. -/
theorem detectFeatures_status (lib : Lib K) (isDebugMode : Bool) (d : Detection K)
    (rest : List (Detection K)) (l m : Except JSError Unit) (page : Page)
    (hne : d.expressions ≠ []) :
    ∃ dominant, dominantExpression d.expressions = Except.ok dominant ∧
      (detectFeatures lib isDebugMode
        { detectAllFaces := Except.ok (d :: rest), drawFaceLandmarks := l, drawDetections := m }
        page).status =
      String.intercalate "<br>"
        (["Age: ~" ++ toString (round d.age),
          "Gender: " ++ d.gender,
          "Expression: " ++ (lib.toUpperCase (dominant.take 1) ++ dominant.drop 1),
          "Sobriety Check: " ++
            (if (checkIntoxication lib.euclideanDistance d d.landmarks).isIntoxicated = true
              then "🚨 Possible intoxication" else "✅ Looking sober")] ++
          (if (checkIntoxication lib.euclideanDistance d d.landmarks).isIntoxicated = true
            then ["Signs: " ++ String.intercalate ", "
              (checkIntoxication lib.euclideanDistance d d.landmarks).signs]
            else [])) := by
  obtain ⟨entry, hdom⟩ := dominantExpression_ok d.expressions hne
  refine ⟨entry.1, hdom, ?_⟩
  have hmsg : statusMessages lib.toUpperCase d entry.1
      (checkIntoxication lib.euclideanDistance d d.landmarks) =
      ["Age: ~" ++ toString (round d.age),
        "Gender: " ++ d.gender,
        "Expression: " ++ (lib.toUpperCase (entry.1.take 1) ++ entry.1.drop 1),
        "Sobriety Check: " ++
          (if (checkIntoxication lib.euclideanDistance d d.landmarks).isIntoxicated = true
            then "🚨 Possible intoxication" else "✅ Looking sober")] ++
        (if (checkIntoxication lib.euclideanDistance d d.landmarks).isIntoxicated = true
          then ["Signs: " ++ String.intercalate ", "
            (checkIntoxication lib.euclideanDistance d d.landmarks).signs]
          else []) := by
    unfold statusMessages capitalize
    rw [mathRound_eq_round]
    split <;> simp
  rw [← hmsg]
  have h := detectBody_of_dominant lib isDebugMode d rest l m page entry.1 hdom
  unfold detectFeatures
  rcases hb : detectBody lib isDebugMode
    { detectAllFaces := Except.ok (d :: rest), drawFaceLandmarks := l, drawDetections := m }
    page with ⟨_ | e, page'⟩ <;> rw [hb] at h <;> exact h.1

end CycleClaims

/-- C8, at a face aged 30 with happy 0.8, neutral 0.1 and eye ratio 0.15,
followed by a second face that is ignored: the five lines rendered. -/
theorem detectFeatures_status_example :
    (sampleDetection 20 3 0.8 0.1).expressions ≠ [] ∧
    (detectFeatures sampleLib false
      { detectAllFaces := Except.ok [sampleDetection 20 3 0.8 0.1, sampleDetection 20 6 0.2 0.5],
        drawFaceLandmarks := Except.ok (), drawDetections := Except.ok () }
      Page.initial).status =
      "Age: ~30<br>Gender: female<br>Expression: Happy<br>" ++
      "Sobriety Check: 🚨 Possible intoxication<br>" ++
      "Signs: Droopy eyes, Excessive happiness, Lack of focus" := by
  have hne : (sampleDetection 20 3 0.8 0.1).expressions ≠ [] := by simp [sampleDetection]
  obtain ⟨dominant, hdom, hstatus⟩ := detectFeatures_status sampleLib false
    (sampleDetection 20 3 0.8 0.1) [sampleDetection 20 6 0.2 0.5] (Except.ok ()) (Except.ok ())
    Page.initial hne
  have hhappy : dominantExpression (sampleDetection 20 3 0.8 0.1).expressions =
      Except.ok "happy" := by
    simp [dominantExpression, reduce, sampleDetection, pickEntry_eq]
    norm_num
  have hd : dominant = "happy" := by
    rw [hhappy] at hdom
    injection hdom with hdom
    exact hdom.symm
  have hcheck : checkIntoxication sampleLib.euclideanDistance (sampleDetection 20 3 0.8 0.1)
      (sampleDetection 20 3 0.8 0.1).landmarks =
      { isIntoxicated := true,
        signs := ["Droopy eyes", "Excessive happiness", "Lack of focus"] } := by
    show checkIntoxication axisDistance (sampleDetection 20 3 0.8 0.1) (sampleLandmarks 20 3) = _
    rw [checkIntoxication_eq axisDistance (sampleDetection 20 3 0.8 0.1) (sampleLandmarks 20 3)
      0.15 0.8 0.1 sample_ratio_droopy (sample_happy _ _ _ _) (sample_neutral _ _ _ _)]
    norm_num [pushIf]
  have hage : round (sampleDetection 20 3 0.8 0.1).age = 30 := by
    norm_num [sampleDetection]
  refine ⟨hne, ?_⟩
  rw [hstatus, hcheck, hage, hd]
  decide

end FaceAI
